import Mathlib

/-!
Verification of the Morgan package mirrorer (ido50/morgan) against its
natural-language specification.

The development shallowly embeds the relevant parts of `morgan/__init__.py`,
`morgan/metadata.py` and `morgan/utils.py`:

* pure helpers (`parse_interpreter`, `canonicalize_name`, requirement
  serialization, version/specifier arithmetic) become Lean functions;
* the stateful mirroring pipeline (`Mirrorer.mirror`, `Mirrorer._mirror`,
  `Mirrorer._filter_files`, `Mirrorer._matches_environments`,
  `Mirrorer._process_file`, `Mirrorer._download_file`, `Mirrorer._hash_file`)
  becomes explicit state passing, with network access and the filesystem
  modelled as explicit oracles / association lists;
* fallible Python code (raised exceptions) returns `Except`.

Third-party library calls (the `packaging` library's version, specifier and
marker primitives, the regex engine, hash functions and network reads) are
embedded either as small faithful functions restricted to plain release
versions (which is all the source and the checked scenarios exercise) or as
explicit oracle parameters; each definition's doc comment states which.
-/

namespace Morgan

/-- Decidable equality for `Except` results (the standard library derives
none), so that concrete runs of the fallible embeddings can be checked by
`decide`. -/
instance {ε α : Type} [DecidableEq ε] [DecidableEq α] :
    DecidableEq (Except ε α) := fun a b =>
  match a, b with
  | .error x, .error y =>
      if h : x = y then .isTrue (by rw [h]) else .isFalse (by simp [h])
  | .error _, .ok _ => .isFalse (by simp)
  | .ok _, .error _ => .isFalse (by simp)
  | .ok x, .ok y =>
      if h : x = y then .isTrue (by rw [h]) else .isFalse (by simp [h])

/-! ### Association lists (Python `dict` with insertion order) -/

/-- Association-list lookup, returning the first binding of the key.
Models Python `d[k]` / `d.get(k)` on a `dict` represented as an
insertion-ordered list of bindings. -/
def dictLookup {α : Type} (m : List (String × α)) (k : String) : Option α :=
  match m with
  | [] => none
  | (k', v) :: rest => if k' = k then some v else dictLookup rest k

/-- Association-list update. Models Python `d[k] = v`: replaces the first
binding of `k` in place (keeping its position), or appends a new binding
at the end, exactly like insertion into an insertion-ordered `dict`. -/
def dictInsert {α : Type} (m : List (String × α)) (k : String) (v : α) :
    List (String × α) :=
  match m with
  | [] => [(k, v)]
  | (k', v') :: rest =>
      if k' = k then (k, v) :: rest else (k', v') :: dictInsert rest k v

/-- Association-list bulk update. Models Python `d.update(other)`: every
binding of `other` is written into `d` in iteration order. -/
def dictUpdate {α : Type} (m other : List (String × α)) : List (String × α) :=
  other.foldl (fun acc kv => dictInsert acc kv.1 kv.2) m

/-! ### Character-list string primitives

The Lean core implementations of `String.replace`, `String.endsWith`,
`String.splitOn` and friends do not reduce inside the kernel, so the
development uses its own structural implementations over `List Char`. -/

/-- Does `s` end with `suffix`? -/
def strEndsWith (s suffix : String) : Bool :=
  suffix.data.reverse.isPrefixOf s.data.reverse

/-- Drop the last `n` characters of `s`. -/
def strDropRight (s : String) (n : Nat) : String :=
  String.mk (s.data.take (s.data.length - n))

/-- Split a character list at every occurrence of `sep` (Python
`str.split(sep)` semantics: `n` separators yield `n+1` pieces). -/
def splitOnChar (sep : Char) : List Char → List (List Char)
  | [] => [[]]
  | c :: cs =>
      let r := splitOnChar sep cs
      if c = sep then [] :: r
      else
        match r with
        | [] => [[c]]
        | h :: t => (c :: h) :: t

/-- Numeric value of a digit string, `['3','1','0'] ↦ 310`. -/
def digitsToNat (cs : List Char) : Nat :=
  cs.foldl (fun n c => n * 10 + (c.toNat - 48)) 0

/-- Fuel-driven worker for `replaceList`; the fuel is an upper bound on the
number of characters still to be consumed, making the recursion
structural (well-founded recursion would not reduce in the kernel). -/
def replaceListAux (pat repl : List Char) : Nat → List Char → List Char
  | _, [] => []
  | 0, l => l
  | fuel + 1, c :: cs =>
      if pat.isPrefixOf (c :: cs) && !pat.isEmpty then
        repl ++ replaceListAux pat repl fuel (cs.drop (pat.length - 1))
      else c :: replaceListAux pat repl fuel cs

/-- Replace every (non-overlapping, leftmost-first) occurrence of `pat` by
`repl` — Python `str.replace` semantics. -/
def replaceList (pat repl l : List Char) : List Char :=
  replaceListAux pat repl l.length l

/-- `str.replace` on strings, via `replaceList`. -/
def strReplace (s pat repl : String) : String :=
  String.mk (replaceList pat.data repl.data s.data)

/-! ### Versions and specifiers

The source delegates version handling to the `packaging` library.  The
embedding covers plain release versions (dot-separated numeric components,
PEP 440 comparison with zero padding), which is what every version string
appearing in the source's own logic and in the checked claims is. -/

/-- A parsed release version: its numeric components, e.g. `1.5.2 ↦ [1,5,2]`.
Models `packaging.version.Version` restricted to release segments. -/
abbrev Ver := List Nat

/-- PEP 440 comparison of two release versions: componentwise, with the
shorter version padded with zeros (`1.5 = 1.5.0`).  Models comparison of
`packaging.version.Version` values for release-only versions. -/
def verCmp : Ver → Ver → Ordering
  | [], bs => if bs.all (· = 0) then .eq else .lt
  | a :: as, [] => if a = 0 then verCmp as [] else .gt
  | a :: as, b :: bs =>
      if a < b then .lt else if b < a then .gt else verCmp as bs

/-- Boolean strict order on release versions derived from `verCmp`. -/
def verLt (a b : Ver) : Bool := verCmp a b = Ordering.lt

/-- Parse a dot-separated numeric string into a release version
(`"3.10" ↦ some [3,10]`); any non-numeric component fails.  Models
`packaging.version.Version(s)` for release-only versions, with `none`
standing for the `InvalidVersion` exception. -/
def parseVer (s : String) : Option Ver :=
  let parts := splitOnChar '.' s.data
  if parts.all (fun p => !p.isEmpty && p.all Char.isDigit) then
    some (parts.map digitsToNat)
  else
    none

/-- A version-comparison operator of a specifier clause. -/
inductive SpecOp
  | lt | le | gt | ge | eq | ne
  deriving DecidableEq, Repr

/-- One specifier clause, e.g. `>=1.5.0` is `(SpecOp.ge, [1,5,0])`. -/
abbrev Spec := SpecOp × Ver

/-- Check one specifier clause against a version.  Models
`packaging.specifiers.Specifier.contains` for release-only versions
(no wildcard `==x.*`, prerelease or local-segment handling, which the
checked scenarios never exercise). -/
def specContains (s : Spec) (v : Ver) : Bool :=
  match s.1 with
  | .lt => verCmp v s.2 = Ordering.lt
  | .le => verCmp v s.2 ≠ Ordering.gt
  | .gt => verCmp v s.2 = Ordering.gt
  | .ge => verCmp v s.2 ≠ Ordering.lt
  | .eq => verCmp v s.2 = Ordering.eq
  | .ne => verCmp v s.2 ≠ Ordering.eq

/-- Check a whole specifier set (AND of its clauses) against a version.
Models `packaging.specifiers.SpecifierSet.contains`; an empty set contains
every version. -/
def specSetContains (ss : List Spec) (v : Ver) : Bool :=
  ss.all (fun s => specContains s v)

/-- Render a specifier operator back to its string form (used by
requirement serialization). -/
def specOpStr : SpecOp → String
  | .ge => ">="
  | .gt => ">"
  | .le => "<="
  | .lt => "<"
  | .ne => "!="
  | .eq => "=="

/-- Render a release version back to its dotted string form. -/
def verStr (v : Ver) : String :=
  String.intercalate "." (v.map toString)

/-! ### `parse_interpreter` (morgan/__init__.py lines 427-445)

The Python source matches the interpreter token of a wheel tag against the
regex `^([^\d]+)(?:(\d)(?:[._])?(\d+)?)$` and, on a match, renders the
version as `<major>` or `<major>.<minor>`.  The embedding reproduces the
regex exactly: a regex match, if any, must split the input at the maximal
non-digit prefix (a shorter prefix would put a non-digit where the
mandatory `(\d)` group is), after which the remaining alternatives below
are precisely the ways the tail can match. -/

/-- Split a character list into its maximal prefix of non-digit characters
and the rest (the embedding of the greedy `[^\d]+` regex group). -/
def splitNonDigits : List Char → List Char × List Char
  | [] => ([], [])
  | c :: cs =>
      if c.isDigit then ([], c :: cs)
      else
        let (p, r) := splitNonDigits cs
        (c :: p, r)

/-- Embedding of `parse_interpreter` from `morgan/__init__.py`: parse the
interpreter token of a wheel tag into an implementation name and an
optional `<major>` or `<major>.<minor>` version; tokens that do not match
the regex are returned whole with no version. -/
def parse_interpreter (inp : String) : String × Option String :=
  match splitNonDigits inp.data with
  | ([], _) => (inp, none)
  | (_ :: _, []) => (inp, none)
  | (p@(_ :: _), d :: rest) =>
      match rest with
      | [] => (String.mk p, some (String.mk [d]))
      | c :: rest2 =>
          if c = '.' ∨ c = '_' then
            match rest2 with
            | [] => (String.mk p, some (String.mk [d]))
            | _ =>
                if rest2.all Char.isDigit then
                  (String.mk p, some (String.mk [d] ++ "." ++ String.mk rest2))
                else (inp, none)
          else
            if (c :: rest2).all Char.isDigit then
              (String.mk p, some (String.mk [d] ++ "." ++ String.mk (c :: rest2)))
            else (inp, none)

example : parse_interpreter "cp310" = ("cp", some "3.10") := by decide
example : parse_interpreter "cp3" = ("cp", some "3") := by decide
example : parse_interpreter "cp3_10" = ("cp", some "3.10") := by decide
example : parse_interpreter "py38" = ("py", some "3.8") := by decide
example : parse_interpreter "something_strange" = ("something_strange", none) := by
  decide

/-! ### Canonical package names

`packaging.utils.canonicalize_name` is `re.sub(r"[-_.]+", "-", name).lower()`:
every run of `-`, `_`, `.` characters is folded to a single `-`, and the
result is lower-cased. -/

/-- Fold every run of consecutive dashes into a single dash. -/
def collapseDashes : List Char → List Char
  | [] => []
  | c :: cs =>
      match cs with
      | [] => [c]
      | c2 :: _ =>
          if c = '-' && c2 = '-' then collapseDashes cs
          else c :: collapseDashes cs

/-- Embedding of `packaging.utils.canonicalize_name` (used at
`morgan/__init__.py` lines 341 and 455): replace `-`/`_`/`.` runs by a
single `-` and lower-case. -/
def canonicalize_name (s : String) : String :=
  String.mk (collapseDashes (s.data.map
    (fun c => if c = '-' || c = '_' || c = '.' then '-' else c.toLower)))

example : canonicalize_name "Requests_HTTP" = "requests-http" := by decide
example : canonicalize_name "requests.http" = "requests-http" := by decide

/-! ### Environment markers

PEP 508 marker expressions, modelled as a tagged expression tree as the
spec prescribes.  Evaluation follows `packaging.markers.Marker.evaluate`
as the source uses it: comparisons between two version-parseable strings
compare as versions, all other comparisons compare as plain strings;
`in` / `not in` are substring tests.  Marker-variable lookup in an
environment mapping yields the empty string for absent names. -/

/-- One side of a marker comparison: an environment variable or a literal. -/
inductive MExpr
  | var (name : String)
  | lit (value : String)
  deriving DecidableEq, Repr

/-- A marker comparison operator. -/
inductive MOp
  | eq | ne | lt | le | gt | ge | inside | notInside
  deriving DecidableEq, Repr

/-- A PEP 508 marker expression tree. -/
inductive Marker
  | cmp (lhs : MExpr) (op : MOp) (rhs : MExpr)
  | conj (a b : Marker)
  | disj (a b : Marker)
  deriving DecidableEq, Repr

/-- An environment: a mapping from marker-variable names to string values,
as built by `Mirrorer.__init__` from the `env.*` configuration blocks. -/
abbrev Env := List (String × String)

/-- Marker-variable lookup; absent names evaluate to the empty string. -/
def envGet (env : Env) (name : String) : String :=
  (dictLookup env name).getD ""

/-- Evaluate one side of a marker comparison to a string. -/
def evalMExpr (env : Env) : MExpr → String
  | .var n => envGet env n
  | .lit v => v

/-- String containment check (Python `in` on strings): does `needle` occur
as a contiguous substring of `hay`? -/
def strContains (hay needle : String) : Bool :=
  let rec go : List Char → Bool
    | [] => needle.data.isPrefixOf []
    | c :: cs => needle.data.isPrefixOf (c :: cs) || go cs
  go hay.data

/-- Evaluate a marker comparison operator on two strings: when both operands
parse as release versions and the operator is an ordering/equality operator,
compare as versions (the `Specifier`-based branch of
`packaging.markers._eval_op`); otherwise compare as plain strings. -/
def evalMOp (op : MOp) (lhs rhs : String) : Bool :=
  match op with
  | .inside => strContains rhs lhs
  | .notInside => !strContains rhs lhs
  | _ =>
      match parseVer lhs, parseVer rhs with
      | some lv, some rv =>
          match op with
          | .eq => verCmp lv rv = Ordering.eq
          | .ne => verCmp lv rv ≠ Ordering.eq
          | .lt => verCmp lv rv = Ordering.lt
          | .le => verCmp lv rv ≠ Ordering.gt
          | .gt => verCmp lv rv = Ordering.gt
          | .ge => verCmp lv rv ≠ Ordering.lt
          | _ => false
      | _, _ =>
          match op with
          | .eq => lhs = rhs
          | .ne => lhs ≠ rhs
          | .lt => decide (lhs < rhs)
          | .le => decide (lhs ≤ rhs)
          | .gt => decide (rhs < lhs)
          | .ge => decide (rhs ≤ lhs)
          | _ => false

/-- Evaluate a marker expression against one environment.  Models
`packaging.markers.Marker.evaluate(env)` as used by the source. -/
def evalMarker (env : Env) : Marker → Bool
  | .cmp lhs op rhs => evalMOp op (evalMExpr env lhs) (evalMExpr env rhs)
  | .conj a b => evalMarker env a && evalMarker env b
  | .disj a b => evalMarker env a || evalMarker env b

/-! ### Requirements

`packaging.requirements.Requirement`: canonicalizable name, extras,
specifier set, optional marker.  The serialized form (`str(req)`) is what
the mirrorer keys its processed-set by. -/

/-- A parsed requirement (embedding of
`packaging.requirements.Requirement`; the optional URL component is never
used by the source and is omitted). -/
structure Req where
  name : String
  extras : List String
  specs : List Spec
  marker : Option Marker
  deriving DecidableEq, Repr

/-- Insert a string into an ascending list (insertion-sort step). -/
def insortStr (x : String) : List String → List String
  | [] => [x]
  | y :: ys => if x ≤ y then x :: y :: ys else y :: insortStr x ys

/-- Sort strings ascending (Python `sorted` on strings). -/
def sortStrs (l : List String) : List String := l.foldr insortStr []

/-- Render one specifier clause as text, e.g. `>=1.5.0`. -/
def specStr (s : Spec) : String := specOpStr s.1 ++ verStr s.2

/-- Render a marker expression back to text, following
`packaging.markers.Marker.__str__` (literals are double-quoted). -/
def markerStr : Marker → String
  | .cmp lhs op rhs =>
      let side : MExpr → String
        | .var n => n
        | .lit v => "\"" ++ v ++ "\""
      let opTxt : MOp → String
        | .inside => "in" | .notInside => "not in" | .ge => ">=" | .gt => ">"
        | .le => "<=" | .lt => "<" | .ne => "!=" | .eq => "=="
      side lhs ++ " " ++ opTxt op ++ " " ++ side rhs
  | .conj a b => markerStr a ++ " and " ++ markerStr b
  | .disj a b => markerStr a ++ " or " ++ markerStr b

/-- Embedding of `str(requirement)`
(`packaging.requirements.Requirement.__str__`): name, then sorted extras in
brackets, then the sorted comma-joined specifier set, then `; marker`.
This exact string is the mirrorer's dedup key. -/
def reqStr (r : Req) : String :=
  r.name
    ++ (if r.extras.isEmpty then ""
        else "[" ++ String.intercalate "," (sortStrs r.extras) ++ "]")
    ++ String.intercalate "," (sortStrs (r.specs.map specStr))
    ++ (match r.marker with
        | none => ""
        | some m => "; " ++ markerStr m)

/-! ### Catalog file records and file selection
(`Mirrorer._filter_files`, `morgan/__init__.py` lines 191-268) -/

/-- The `requires-python` field of a catalog file entry after the source's
parsing step: `invalid` models a string on which
`packaging.specifiers.SpecifierSet` raises (the `except` branch at
`morgan/__init__.py` line 289), `specSet` the parsed clauses (with the
source's `isdigit` fix-up, a bare number having become `==n`). -/
inductive ReqPython
  | invalid
  | specSet (specs : List Spec)
  deriving DecidableEq, Repr

/-- One wheel compatibility tag (interpreter, ABI, platform). -/
structure WheelTag where
  interpreter : String
  abi : String
  platform : String
  deriving DecidableEq, Repr

/-- A raw catalog file entry, as delivered by the index JSON: filename,
URL, digest map, optional `requires-python` (absent or empty string ↦
`none`), `yanked` flag. -/
structure FileInfo where
  filename : String
  url : String
  hashes : List (String × String)
  requiresPython : Option ReqPython
  yanked : Bool
  deriving DecidableEq, Repr

/-- A file entry after `_filter_files`'s enrichment loop added the parsed
`version`, the `is_wheel` flag and (for wheels) the tag list. -/
structure EnrFile where
  info : FileInfo
  version : Ver
  isWheel : Bool
  tags : Option (List WheelTag)
  deriving DecidableEq, Repr

/-- Position of the leftmost match of the regex `-[0-9].*-` in a character
list (a dash followed by a digit with another dash somewhere later). -/
def tsdAux : List Char → Option Nat
  | [] => none
  | c :: cs =>
      let here : Bool := c = '-' &&
        (match cs with
         | d :: rest => d.isDigit && rest.contains '-'
         | [] => false)
      if here then some 0 else (tsdAux cs).map (· + 1)

/-- Embedding of `to_single_dash` from `morgan/utils.py`: starting at the
first dash that is followed by a digit and a later dash, rewrite `-dev-`
to `.dev` and every remaining dash to a dot, leaving the prefix (the
package name and its first dash) untouched. -/
def to_single_dash (filename : String) : String :=
  match tsdAux filename.data with
  | none => filename
  | some i =>
      let pre := String.mk (filename.data.take (i + 1))
      let s2 := String.mk (filename.data.drop (i + 1))
      pre ++ strReplace (strReplace s2 "-dev-" ".dev") "-" "."

example : to_single_dash "selenium-2.0-dev-9429.tar.gz"
    = "selenium-2.0.dev9429.tar.gz" := by decide
example : to_single_dash "pkg-1.5.2.tar.gz" = "pkg-1.5.2.tar.gz" := by decide

/-- Characters after the last dash of a character list (`str.rpartition`),
or `none` when there is no dash. -/
def afterLastDash : List Char → Option (List Char)
  | [] => none
  | c :: rest =>
      match afterLastDash rest with
      | some r => some r
      | none => if c = '-' then some rest else none

/-- Version component of an sdist filename: strip the `.tar.gz`/`.zip`
suffix, split at the last dash, parse the remainder as a version.  Models
`packaging.utils.parse_sdist_filename` (restricted to release-only
versions), with `none` for the exceptions the source catches. -/
def parse_sdist_version (filename : String) : Option Ver :=
  let stem :=
    if strEndsWith filename ".tar.gz" then some (strDropRight filename 7)
    else if strEndsWith filename ".zip" then some (strDropRight filename 4)
    else none
  match stem with
  | none => none
  | some st =>
      match afterLastDash st.data with
      | none => none
      | some verChars => parseVer (String.mk verChars)

example : parse_sdist_version "pkg-1.5.2.tar.gz" = some [1, 5, 2] := by decide

/-- Match of the regex `\.(whl|zip|tar.gz)$` used by the extension filter
at `morgan/__init__.py` line 199.  The dot in `tar.gz` is unescaped in the
source, so any character is accepted in that position. -/
def extOk (s : String) : Bool :=
  strEndsWith s ".whl" || strEndsWith s ".zip" ||
    (match s.data.reverse.take 7 with
     | 'z' :: 'g' :: _ :: 'r' :: 'a' :: 't' :: '.' :: [] => true
     | _ => false)

/-- Embedding of the enrichment loop of `_filter_files` (lines 204-231) for
one file: wheels go through `packaging.utils.parse_wheel_filename`
(supplied as the oracle `wheelParse`), sdists through
`parse_sdist_filename ∘ to_single_dash`; `none` models the `continue`
branches that leave the file without a `version` key, which the
subsequent filter at line 236 then drops. -/
def enrichFile (wheelParse : String → Option (Ver × List WheelTag))
    (f : FileInfo) : Option EnrFile :=
  if strEndsWith f.filename ".whl" then
    match wheelParse f.filename with
    | some (v, tags) => some ⟨f, v, true, some tags⟩
    | none => none
  else if strEndsWith f.filename ".tar.gz" || strEndsWith f.filename ".zip" then
    match parse_sdist_version (to_single_dash f.filename) with
    | some v => some ⟨f, v, false, none⟩
    | none => none
  else none

/-- Stable descending insertion by parsed version: the new element goes
before the first strictly-smaller version and after equal ones. -/
def insertVerDesc (x : EnrFile) : List EnrFile → List EnrFile
  | [] => [x]
  | y :: ys =>
      if verLt y.version x.version then x :: y :: ys
      else y :: insertVerDesc x ys

/-- Stable descending sort by parsed version.  Models
`files.sort(key=lambda file: file["version"], reverse=True)` (Python's
sort is stable, also with `reverse=True`). -/
def sortByVerDesc (l : List EnrFile) : List EnrFile :=
  l.foldl (fun acc x => insertVerDesc x acc) []

/-- The environment-dependent state `Mirrorer.__init__` derives from the
configuration: the `python_version` strings of the `env.*` blocks (in
configuration order) and the compiled platform patterns, the latter kept
abstract as Boolean matchers (`re.fullmatch` on the compiled regexes). -/
structure MirrorConfig where
  supportedPyversions : List String
  platformMatchers : List (String → Bool)

/-- Embedding of the wheel-tag part of `_matches_environments`
(lines 293-315): with a non-empty tag list, at least one tag must have a
`py`/`cp` interpreter whose version is absent, `3`, or one of the
configured `python_version` strings, and a platform that is `any` or
matched by one of the configured platform patterns. -/
def tagsMatch (cfg : MirrorConfig) (f : EnrFile) : Bool :=
  match f.tags with
  | none => true
  | some [] => true
  | some tags =>
      tags.any (fun t =>
        let nv := parse_interpreter t.interpreter
        if !(nv.1 = "py" || nv.1 = "cp") then false
        else
          let verOk :=
            match nv.2 with
            | none => true
            | some v => v = "3" || cfg.supportedPyversions.contains v
          if !verOk then false
          else t.platform = "any" ||
            cfg.platformMatchers.any (fun m => m t.platform))

/-- Embedding of `Mirrorer._matches_environments` (lines 270-317): a file
carrying a `requires-python` constraint is rejected outright if the
constraint failed to parse, if any configured `python_version` fails it,
or if any configured `python_version` cannot be parsed as a version inside
the check (the `except` branch); otherwise the wheel-tag check decides. -/
def matches_environments (cfg : MirrorConfig) (f : EnrFile) : Bool :=
  match f.info.requiresPython with
  | some .invalid => false
  | some (.specSet rp) =>
      let results := cfg.supportedPyversions.map
        (fun s => (parseVer s).map (specSetContains rp))
      if results.any (fun r => r = none) then false
      else if results.any (fun r => r = some false) then false
      else tagsMatch cfg f
  | none => tagsMatch cfg f

/-- Narrow an already version-descending file list to the entries sharing
the head's version (lines 263-266). -/
def keepLatestVersion (fs : List EnrFile) : List EnrFile :=
  match fs with
  | [] => []
  | top :: _ => fs.filter (fun f => verCmp f.version top.version = Ordering.eq)

/-- Shared pipeline of `_filter_files` up to and including the
environment filter (lines 196-261): extension filter, enrichment,
yanked filter, stable descending version sort, specifier filter (the
`specifier is not None` test is always true for a
`packaging.requirements.Requirement`, an empty specifier set containing
everything), then the environment filter; `none` models the two
`return None` branches. -/
def filterFilesCommon (wheelParse : String → Option (Ver × List WheelTag))
    (cfg : MirrorConfig) (req : Req) (files : List FileInfo) :
    Option (List EnrFile) :=
  let files1 := files.filter (fun f => extOk f.filename)
  let files2 := (files1.filterMap (enrichFile wheelParse)).filter
    (fun f => !f.info.yanked)
  let files3 := sortByVerDesc files2
  let files4 := files3.filter (fun f => specSetContains req.specs f.version)
  if files4.isEmpty then none
  else
    let files5 := files4.filter (matches_environments cfg)
    if files5.isEmpty then none
    else some files5

/-- Embedding of `Mirrorer._filter_files` (lines 191-268): the shared
pipeline followed by the unconditional narrowing to the single highest
remaining version. -/
def filter_files (wheelParse : String → Option (Ver × List WheelTag))
    (cfg : MirrorConfig) (req : Req) (files : List FileInfo) :
    Option (List EnrFile) :=
  match filterFilesCommon wheelParse cfg req files with
  | none => none
  | some fs => some (keepLatestVersion fs)

/-- Modelled from the spec: the "all versions" selection mode.  The
`mirror_all_versions` flag is exercised by `src/tests/test_init.py` but
its implementation is absent from `src/morgan/__init__.py`; per spec step 8
("Unless in all versions mode, narrow to files of the single highest
version remaining"), the flag skips exactly the final narrowing of
`filter_files` and changes nothing else. -/
def filter_files_with_mode (wheelParse : String → Option (Ver × List WheelTag))
    (cfg : MirrorConfig) (mirrorAllVersions : Bool) (req : Req)
    (files : List FileInfo) : Option (List EnrFile) :=
  match filterFilesCommon wheelParse cfg req files with
  | none => none
  | some fs =>
      if mirrorAllVersions then some fs else some (keepLatestVersion fs)

/-! ### Filesystem, hashing and the downloader
(`Mirrorer._download_file` lines 348-374, `Mirrorer._hash_file` lines
376-388) -/

/-- The filesystem: an association list from paths to file contents
(byte lists).  Directory creation (`os.makedirs`) has no observable
file-level effect and is not modelled. -/
abbrev FS := List (String × List Nat)

/-- The byte encoding of a text string (what `open(path, "w").write(s)`
stores, for the ASCII strings the source writes). -/
def strBytes (s : String) : List Nat := s.data.map Char.toNat

/-- Embedding of `Mirrorer._hash_file`: read the file at `filepath`,
compute its digest under `hash` (an oracle for `hashlib.new(alg)` over the
contents), overwrite the `<filepath>.hash` sidecar with the single line
`<alg>=<hexdigest>`, and return the digest.  `none` models the
`FileNotFoundError` of opening a missing path. -/
def hash_file (hash : String → List Nat → String) (fs : FS)
    (filepath alg : String) : Option (String × FS) :=
  match dictLookup fs filepath with
  | none => none
  | some contents =>
      let digest := hash alg contents
      some (digest,
        dictInsert fs (filepath ++ ".hash") (strBytes (alg ++ "=" ++ digest)))

/-- Errors `_download_file` can raise: a missing digest algorithm in the
catalog entry (`fileinfo["hashes"][hashalg]` raising `KeyError`) or the
explicit digest-mismatch exception after a download. -/
inductive DlErr
  | keyError
  | fileNotFound
  | digestMismatch
  deriving DecidableEq, Repr

/-- Downloader state: the filesystem plus a counter of network fetches
(each `urllib.request.urlopen(fileinfo["url"])` call). -/
structure DlState where
  fs : FS
  fetchCount : Nat
  deriving DecidableEq, Repr

/-- The download tail of `_download_file` (lines 365-374): fetch the URL
(incrementing the fetch counter), write the bytes to the target, hash the
result (rewriting the sidecar), and raise the digest-mismatch exception
when the recomputed digest differs from the expected one. -/
def fetchAndVerify (hash : String → List Nat → String)
    (net : String → List Nat) (fi : FileInfo) (target alg exphash : String)
    (st' : DlState) : Except (DlErr × DlState) (Bool × DlState) :=
  let bytes := net fi.url
  let fs1 := dictInsert st'.fs target bytes
  match hash_file hash fs1 target alg with
  | none => .error (.fileNotFound, ⟨fs1, st'.fetchCount + 1⟩)
  | some (truehash, fs2) =>
      if truehash = exphash then .ok (true, ⟨fs2, st'.fetchCount + 1⟩)
      else .error (.digestMismatch, ⟨fs2, st'.fetchCount + 1⟩)

/-- Embedding of `Mirrorer._download_file`: look up the expected digest;
if the target exists, hash it (which rewrites the sidecar) and return
`True` without fetching when the digest matches; otherwise run
`fetchAndVerify`.  Errors carry the state reached so far, as raised
Python exceptions leave mutations in place. -/
def download_file (hash : String → List Nat → String)
    (net : String → List Nat) (fi : FileInfo) (target alg : String)
    (st : DlState) : Except (DlErr × DlState) (Bool × DlState) :=
  match dictLookup fi.hashes alg with
  | none => .error (.keyError, st)
  | some exphash =>
      match dictLookup st.fs target with
      | some _ =>
          match hash_file hash st.fs target alg with
          | none => .error (.fileNotFound, st)
          | some (truehash, fs') =>
              if truehash = exphash then .ok (true, ⟨fs', st.fetchCount⟩)
              else fetchAndVerify hash net fi target alg exphash
                ⟨fs', st.fetchCount⟩
      | none => fetchAndVerify hash net fi target alg exphash st

/-! ### Metadata parsing (`morgan/metadata.py`) -/

/-- The metadata a `MetadataParser` instance accumulates, apart from the
retained raw metadata-file bytes: name, version, python requirement,
provided extras, and the three dependency collections.  Python sets and
dicts of sets are modelled as lists / association lists (dedup only
affects multiplicity, never membership). -/
structure MDRecord where
  name : Option String
  version : Option Ver
  pythonRequirement : Option (List Spec)
  extrasProvided : List String
  coreDependencies : List Req
  optionalDependencies : List (String × List Req)
  buildDependencies : List Req
  deriving DecidableEq, Repr

/-- The freshly-constructed record (`MetadataParser.__init__`). -/
def emptyRecord : MDRecord := ⟨none, none, none, [], [], [], []⟩

/-- Embedding of the `MetadataParser` object: the archive path it was
created for, the optional retained raw bytes of the main metadata file
(`_metadata_file`; `none` models the attribute not existing yet), and the
accumulated record. -/
structure MetadataParser where
  sourcePath : String
  metadataFile : Option (List Nat)
  record : MDRecord
  deriving DecidableEq, Repr

/-- Exceptions arising in `morgan/metadata.py`: the `ValueError` for an
unterminated section heading, the `AttributeError` from the call to the
never-defined method `_add_build_requirements`
(`metadata.py` lines 320 and 333 call it; no definition exists anywhere
in the file or its parents), an `InvalidRequirement` from
`packaging.requirements.Requirement`, an `InvalidMarker` from
`packaging.markers.Marker`, the `ValueError` from unpacking
`extra.split(":")` into two names, and the exception
`write_metadata_file` raises when no metadata file has been read. -/
inductive MDErr
  | sectionValueError
  | attributeErrorAddBuild
  | invalidRequirement
  | invalidMarker
  | splitValueError
  | metadataNotRead
  deriving DecidableEq, Repr

/-- Does `s` start with `pat`? -/
def strStartsWith (s pat : String) : Bool :=
  pat.data.isPrefixOf s.data

/-- Python `str.strip()`: remove leading and trailing whitespace. -/
def strStrip (s : String) : String :=
  String.mk (((s.data.dropWhile Char.isWhitespace).reverse.dropWhile
    Char.isWhitespace).reverse)

/-- Parse every requirement line via the `parseReq` oracle
(`packaging.requirements.Requirement`); the first failure models the
`InvalidRequirement` exception escaping the comprehension. -/
def parseAll (parseReq : String → Option Req) : List String →
    Except MDErr (List Req)
  | [] => .ok []
  | s :: rest =>
      match parseReq s with
      | none => .error .invalidRequirement
      | some r => (parseAll parseReq rest).map (r :: ·)

/-- Embedding of `MetadataParser._add_optional_requirements`: create the
extra's entry if absent, then union the parsed requirements into it. -/
def addOptional (r : MDRecord) (extra : String) (reqs : List Req) : MDRecord :=
  match dictLookup r.optionalDependencies extra with
  | none =>
      { r with optionalDependencies :=
          dictInsert r.optionalDependencies extra reqs }
  | some old =>
      { r with optionalDependencies :=
          dictInsert r.optionalDependencies extra (old ++ reqs) }

/-- Truthiness of the `section` variable of `_parse_requirestxt`
(Python: `None` and the empty string are both falsy). -/
def secTruthy : Option String → Bool
  | none => false
  | some s => !s.isEmpty

/-- The flush step of `_parse_requirestxt` (lines 316-322 and 330-335): a
truthy section label files the accumulated lines as optional
requirements; otherwise a `setup_requires.txt` file routes them to
`self._add_build_requirements(content)`, which raises `AttributeError`
because that method is not defined anywhere in `MetadataParser`; any
other file adds them as core requirements. -/
def flushReqs (parseReq : String → Option Req) (fpName : String)
    (sec : Option String) (content : List String) (r : MDRecord) :
    Except MDErr MDRecord :=
  match sec with
  | some s =>
      if !s.isEmpty then
        (parseAll parseReq content).map (fun reqs => addOptional r s reqs)
      else if strEndsWith fpName "setup_requires.txt" then
        .error .attributeErrorAddBuild
      else
        (parseAll parseReq content).map (fun reqs =>
          { r with coreDependencies := r.coreDependencies ++ reqs })
  | none =>
      if strEndsWith fpName "setup_requires.txt" then
        .error .attributeErrorAddBuild
      else
        (parseAll parseReq content).map (fun reqs =>
          { r with coreDependencies := r.coreDependencies ++ reqs })

/-- The line loop of `_parse_requirestxt` (lines 310-328): strip each line;
a `[`-opening line must close with `]` (else `ValueError`) and flushes the
previous block when a section label or content exists; non-empty ordinary
lines accumulate. -/
def requiresTxtLoop (parseReq : String → Option Req) (fpName : String) :
    List String → Option String → List String → MDRecord →
    Except MDErr (Option String × List String × MDRecord)
  | [], sec, content, r => .ok (sec, content, r)
  | line :: rest, sec, content, r =>
      let l := strStrip line
      if strStartsWith l "[" then
        if strEndsWith l "]" then
          if secTruthy sec || !content.isEmpty then
            match flushReqs parseReq fpName sec content r with
            | .error e => .error e
            | .ok r' =>
                requiresTxtLoop parseReq fpName rest
                  (some (String.mk ((l.data.drop 1).dropLast))) [] r'
          else
            requiresTxtLoop parseReq fpName rest
              (some (String.mk ((l.data.drop 1).dropLast))) [] r
        else .error .sectionValueError
      else if !l.isEmpty then
        requiresTxtLoop parseReq fpName rest sec (content ++ [l]) r
      else
        requiresTxtLoop parseReq fpName rest sec content r

/-- Embedding of `MetadataParser._parse_requirestxt` (lines 309-335): run
the line loop, then perform the unconditional final flush. -/
def parse_requirestxt (parseReq : String → Option Req) (fpName : String)
    (lines : List String) (r : MDRecord) : Except MDErr MDRecord :=
  match requiresTxtLoop parseReq fpName lines none [] r with
  | .error e => .error e
  | .ok (sec, content, r') => flushReqs parseReq fpName sec content r'

/-! ### Archive-member dispatch (`MetadataParser.parse`, lines 77-124)

The member-name regexes of `parse` are embedded over the member's
slash-separated segments (the character classes `[^/]+` cannot cross a
slash, so a full match fixes the segment shape). -/

/-- Slash-separated segments of a member name. -/
def segsOf (filename : String) : List (List Char) :=
  splitOnChar '/' filename.data

/-- Full match of `[^/]+\.dist-info/METADATA` (wheel main metadata). -/
def matchWhlMetadata (filename : String) : Bool :=
  match segsOf filename with
  | [a, m] =>
      m = "METADATA".data && strEndsWith (String.mk a) ".dist-info" &&
        decide (a.length > ".dist-info".length)
  | _ => false

/-- Full match of `([^/]+/)?PKG-INFO` (zip sdist main metadata). -/
def matchZipPkgInfo (filename : String) : Bool :=
  match segsOf filename with
  | [m] => m = "PKG-INFO".data
  | [a, m] => !a.isEmpty && m = "PKG-INFO".data
  | _ => false

/-- Full match of `[^/]+/PKG-INFO` (tar sdist main metadata). -/
def matchTarPkgInfo (filename : String) : Bool :=
  match segsOf filename with
  | [a, m] => !a.isEmpty && m = "PKG-INFO".data
  | _ => false

/-- Full match of the last segment against `(setup_)?requires.txt`; the
dot is unescaped in the source regex, so any character is accepted in
that position. -/
def matchReqTxtSeg (m : List Char) : Bool :=
  let core := fun (r : List Char) =>
    decide (r.length = 12) && r.take 8 = "requires".data &&
      r.drop 9 = "txt".data
  core m || ("setup_".data.isPrefixOf m && core (m.drop 6))

/-- Full match of `[^/]+(/[^/]+)?\.egg-info/(setup_)?requires.txt`
(setuptools requirement manifests inside tar sdists). -/
def matchEggRequires (filename : String) : Bool :=
  match segsOf filename with
  | [a, m] =>
      strEndsWith (String.mk a) ".egg-info" &&
        decide (a.length > ".egg-info".length) && matchReqTxtSeg m
  | [a, b, m] =>
      !a.isEmpty && strEndsWith (String.mk b) ".egg-info" &&
        decide (b.length > ".egg-info".length) && matchReqTxtSeg m
  | _ => false

/-- Full match of `[^/]+/pyproject.toml` (dot unescaped in the source). -/
def matchPyproject (filename : String) : Bool :=
  match segsOf filename with
  | [a, m] =>
      !a.isEmpty && decide (m.length = 14) && m.take 9 = "pyproject".data &&
        m.drop 10 = "toml".data
  | _ => false

/-- Decode a member's bytes into its lines (`fp.readlines()` then
per-line `decode("UTF-8")`, with the trailing newline left for
`strip` to remove — splitting at newlines commutes with that). -/
def linesOfBytes (content : List Nat) : List String :=
  (splitOnChar '\n' (content.map Char.ofNat)).map String.mk

/-- Embedding of `MetadataParser.parse`: dispatch a member by the archive
kind of `sourcePath` and the member-name patterns; a main-metadata member
has its raw bytes retained in `metadataFile` before its fields are parsed
(`_parse_metadata_file`, which reads header fields through the standard
email parser, is the oracle `parseFields`; `_parse_pyproject`, which
reads the TOML document, is the oracle `parsePyproj` — no checked claim
depends on the field values they produce); all other members are
ignored. -/
def MetadataParser.parse (parseFields : MDRecord → List Nat → MDRecord)
    (parsePyproj : MDRecord → List Nat → Except MDErr MDRecord)
    (parseReq : String → Option Req) (p : MetadataParser)
    (filename : String) (content : List Nat) : Except MDErr MetadataParser :=
  if strEndsWith p.sourcePath ".whl" then
    if matchWhlMetadata filename then
      .ok { p with metadataFile := some content,
                   record := parseFields p.record content }
    else .ok p
  else if strEndsWith p.sourcePath ".zip" then
    if matchZipPkgInfo filename then
      .ok { p with metadataFile := some content,
                   record := parseFields p.record content }
    else .ok p
  else if strEndsWith p.sourcePath ".tar.gz" then
    if matchTarPkgInfo filename then
      .ok { p with metadataFile := some content,
                   record := parseFields p.record content }
    else if matchEggRequires filename then
      match parse_requirestxt parseReq filename (linesOfBytes content)
          p.record with
      | .error e => .error e
      | .ok r => .ok { p with record := r }
    else if matchPyproject filename then
      match parsePyproj p.record content with
      | .error e => .error e
      | .ok r => .ok { p with record := r }
    else .ok p
  else .ok p

/-- Embedding of `MetadataParser.seen_metadata_file`: whether the
`_metadata_file` attribute exists. -/
def seen_metadata_file (p : MetadataParser) : Bool :=
  p.metadataFile.isSome

/-- Embedding of `MetadataParser.write_metadata_file`: raise when no main
metadata file has been read; otherwise write exactly the retained raw
bytes to the target path (clobbering it).  The parser itself is returned
unchanged — the method reads but never assigns any attribute. -/
def write_metadata_file (p : MetadataParser) (target : String) (fs : FS) :
    Except MDErr (MetadataParser × FS) :=
  match p.metadataFile with
  | none => .error .metadataNotRead
  | some bs => .ok (p, dictInsert fs target bs)

/-! ### Dependency resolution (`MetadataParser.dependencies`, lines
146-210) -/

/-- Join the requested extras for binding the `extra` marker variable
(`",".join(extras)`; the Python set's iteration order is fixed here as
the list order). -/
def joinExtras (extras : List String) : String :=
  String.intercalate "," extras

/-- The relevance filter of `dependencies` (lines 193-208): a dependency
with no marker is always relevant; one with a marker is relevant iff the
marker evaluates true against at least one environment after binding that
environment's `extra` to the joined requested extras. -/
def requirementRelevant (extras : List String) (envs : List Env) (d : Req) :
    Bool :=
  match d.marker with
  | none => true
  | some m => envs.any (fun env =>
      evalMarker (dictInsert env "extra" (joinExtras extras)) m)

/-- The union-building phase of `dependencies` (lines 173-191): core plus
build dependencies, plus each optional group whose key is a requested
extra, plus each marker-qualified group (key containing `:`) whose extra
part is empty or requested and whose marker (parsed by the
`parseMarker` oracle for `packaging.markers.Marker`) holds in at least
one environment.  A key that does not split into exactly two parts
raises `ValueError`; an unparseable marker raises `InvalidMarker`. -/
def dependenciesUnion (parseMarker : String → Option Marker) (r : MDRecord)
    (extras : List String) (envs : List Env) : Except MDErr (List Req) :=
  let rec go : List (String × List Req) → List Req → Except MDErr (List Req)
    | [], acc => .ok acc
    | (orig, group) :: rest, acc =>
        if orig.data.contains ':' then
          match (splitOnChar ':' orig.data).map String.mk with
          | [e, spec] =>
              if !e.isEmpty && !extras.contains e then go rest acc
              else
                match parseMarker spec with
                | none => .error .invalidMarker
                | some m =>
                    if envs.any (fun env => evalMarker env m) then
                      go rest (acc ++ group)
                    else go rest acc
          | _ => .error .splitValueError
        else if extras.contains orig then go rest (acc ++ group)
        else go rest acc
  go r.optionalDependencies (r.coreDependencies ++ r.buildDependencies)

/-- Embedding of `MetadataParser.dependencies`: build the union, then
drop the irrelevant dependencies (`deps -= irrelevant_deps` keeps exactly
the members passing the relevance filter). -/
def dependencies (parseMarker : String → Option Marker) (r : MDRecord)
    (extras : List String) (envs : List Env) : Except MDErr (List Req) :=
  match dependenciesUnion parseMarker r extras envs with
  | .error e => .error e
  | .ok deps => .ok (deps.filter (requirementRelevant extras envs))

/-! ### The mirroring engine
(`Mirrorer.mirror` lines 71-98, `Mirrorer._mirror` lines 120-189,
the dependency-dictionary construction of `Mirrorer._process_file`
lines 339-346) -/

/-- A catalog response (PEP 691 JSON body): the `meta.api-version` string
and the `files` entry, with `none` modelling a missing, `null` or
non-list `files` value. -/
structure Catalog where
  apiVersion : String
  files : Option (List FileInfo)
  deriving DecidableEq, Repr

/-- A network failure while fetching the catalog: an
`urllib.error.HTTPError` with its status code (e.g. 404), or any other
transport failure (`urllib.error.URLError`), which the source never
catches. -/
inductive FetchErr
  | httpError (code : Nat)
  | urlError
  deriving DecidableEq, Repr

/-- Run-level errors of the mirroring engine: a propagated fetch error,
the unsupported-api-version and files-field exceptions of `_mirror`, the
`int()` conversion failure on a malformed version component, the
no-files-match exception, and fuel exhaustion of the wave loop (the
embedding's explicit bound on `while len(deps) > 0`). -/
inductive MirrorErr
  | fetch (e : FetchErr)
  | unsupportedApiVersion
  | intValueError
  | badFilesField
  | noFilesMatch
  | outOfFuel
  deriving DecidableEq, Repr

/-- Embedding of the api-version check of `_mirror` (lines 148-154): an
empty (falsy) string defaults to `1.0`; the first two dot-components are
converted with `int` (failure raises `ValueError`); a major component
other than 1 is a fatal unsupported-version error. -/
def checkApiVersion (v : String) : Except MirrorErr Unit :=
  let vs := if v = "" then "1.0" else v
  let parts := (splitOnChar '.' vs.data).take 2
  if parts.all (fun p => !p.isEmpty && p.all Char.isDigit) then
    match parts with
    | p :: _ => if digitsToNat p = 1 then .ok () else .error .unsupportedApiVersion
    | [] => .error .intValueError
  else .error .intValueError

/-- The dependency dictionary `_mirror` accumulates and `mirror` feeds
into the next wave: keys are package names, values the pair of the
discovered requirement and the requirement that required it
(`{"requirement": dep, "required_by": requirement}`). -/
abbrev DepDict := List (String × (Req × Req))

/-- Embedding of the dependency-dictionary construction at the end of
`Mirrorer._process_file` (lines 339-346): every discovered dependency has
its name canonicalized, and its entry is keyed by that canonical **name**
(`depdict[dep.name] = ...`), so a later same-named dependency overwrites
an earlier one. -/
def depdictOfDeps (requirement : Req) (deps : List Req) : DepDict :=
  deps.foldl (fun d dep =>
    let dep' := { dep with name := canonicalize_name dep.name }
    dictInsert d dep'.name (dep', requirement)) []

/-- Embedding of `Mirrorer._mirror`: skip requirements whose exact
serialized string is in the processed set; fetch the catalog (errors
propagate — there is no handler in `_mirror`); check the api version and
the files field; filter files, a `None` result being fatal only when
`required_by` is absent; process each selected file through the
`processFile` oracle (`Mirrorer._process_file`'s download and metadata
extraction), the per-file `except` swallowing any failure; finally mark
the requirement string processed and return the accumulated dependency
dictionary. -/
def mirrorStep (fetch : String → Except FetchErr Catalog)
    (processFile : Req → EnrFile → Except Unit (Option DepDict))
    (wheelParse : String → Option (Ver × List WheelTag)) (cfg : MirrorConfig)
    (st : List String) (req : Req) (requiredBy : Option Req) :
    Except MirrorErr (Option DepDict × List String) :=
  let rs := reqStr req
  if st.contains rs then .ok (none, st)
  else
    match fetch req.name with
    | .error e => .error (.fetch e)
    | .ok data =>
        match checkApiVersion data.apiVersion with
        | .error e => .error e
        | .ok _ =>
            match data.files with
            | none => .error .badFilesField
            | some rawFiles =>
                match filter_files wheelParse cfg req rawFiles with
                | none =>
                    match requiredBy with
                    | none => .error .noFilesMatch
                    | some _ => .ok (none, st)
                | some files =>
                    if files.isEmpty then .error .noFilesMatch
                    else
                      let depdict := files.foldl (fun acc file =>
                        match processFile req file with
                        | .error _ => acc
                        | .ok none => acc
                        | .ok (some d) =>
                            if d.isEmpty then acc else dictUpdate acc d) []
                      .ok (some depdict, st ++ [rs])

/-- One wave of `mirror`'s `while` loop (lines 90-97): process the
dependency entries in order through `mirrorStep` (with their
`required_by`), merging each non-empty result into the next wave's
dictionary; errors of `mirrorStep` propagate — the loop body has no
handler. -/
def processWave (fetch : String → Except FetchErr Catalog)
    (processFile : Req → EnrFile → Except Unit (Option DepDict))
    (wheelParse : String → Option (Ver × List WheelTag)) (cfg : MirrorConfig) :
    DepDict → DepDict → List String →
    Except MirrorErr (DepDict × List String)
  | acc, [], st => .ok (acc, st)
  | acc, (_, (dreq, dby)) :: rest, st =>
      match mirrorStep fetch processFile wheelParse cfg st dreq (some dby) with
      | .error e => .error e
      | .ok (more, st') =>
          let acc' :=
            match more with
            | none => acc
            | some d => if d.isEmpty then acc else dictUpdate acc d
          processWave fetch processFile wheelParse cfg acc' rest st'

/-- The `while len(deps) > 0` loop of `mirror`, with explicit fuel
bounding the number of waves (the loop itself carries no bound; fuel
exhaustion is reported as an error, never as silent success). -/
def mirrorWaves (fetch : String → Except FetchErr Catalog)
    (processFile : Req → EnrFile → Except Unit (Option DepDict))
    (wheelParse : String → Option (Ver × List WheelTag)) (cfg : MirrorConfig) :
    Nat → DepDict → List String → Except MirrorErr (List String)
  | fuel, deps, st =>
      if deps.isEmpty then .ok st
      else
        match fuel with
        | 0 => .error .outOfFuel
        | fuel + 1 =>
            match processWave fetch processFile wheelParse cfg [] deps st with
            | .error e => .error e
            | .ok (next, st') =>
                mirrorWaves fetch processFile wheelParse cfg fuel next st'

/-- Embedding of `Mirrorer.mirror` (lines 71-98): the initial `mirrorStep`
call for the directly requested requirement sits inside
`try/except urllib.error.HTTPError` — an HTTP error there is printed and
swallowed (`deps = None`, then `return`); every other error, and every
error raised while processing the dependency waves, propagates out
unhandled.  The requirement is taken already parsed
(`parse_requirement` canonicalizes the name before this point). -/
def Mirrorer.mirror (fetch : String → Except FetchErr Catalog)
    (processFile : Req → EnrFile → Except Unit (Option DepDict))
    (wheelParse : String → Option (Ver × List WheelTag)) (cfg : MirrorConfig)
    (fuel : Nat) (req : Req) (st : List String) :
    Except MirrorErr (List String) :=
  match mirrorStep fetch processFile wheelParse cfg st req none with
  | .error (.fetch (.httpError _)) => .ok st
  | .error e => .error e
  | .ok (none, st') => .ok st'
  | .ok (some deps, st') =>
      mirrorWaves fetch processFile wheelParse cfg fuel deps st'

/-! ## Shared lemmas -/

theorem dictLookup_dictInsert_self {α : Type} (m : List (String × α))
    (k : String) (v : α) : dictLookup (dictInsert m k v) k = some v := by
  induction m with
  | nil => simp [dictInsert, dictLookup]
  | cons kv rest ih =>
      obtain ⟨k', v'⟩ := kv
      by_cases h : k' = k
      · simp [dictInsert, dictLookup, h]
      · simp [dictInsert, dictLookup, h, ih]

theorem dictLookup_dictInsert_ne {α : Type} (m : List (String × α))
    (k k' : String) (v : α) (h : k' ≠ k) :
    dictLookup (dictInsert m k v) k' = dictLookup m k' := by
  have hk : ¬k = k' := fun hh => h hh.symm
  induction m with
  | nil => simp [dictInsert, dictLookup, hk]
  | cons kv rest ih =>
      obtain ⟨k₀, v₀⟩ := kv
      by_cases h0 : k₀ = k
      · subst h0
        simp [dictInsert, dictLookup, hk]
      · simp [dictInsert, dictLookup, h0, ih]

theorem dictInsert_of_lookup_eq {α : Type} (m : List (String × α))
    (k : String) (v : α) (h : dictLookup m k = some v) :
    dictInsert m k v = m := by
  induction m with
  | nil => simp [dictLookup] at h
  | cons kv rest ih =>
      obtain ⟨k', v'⟩ := kv
      by_cases h0 : k' = k
      · subst h0
        simp [dictLookup] at h
        simp [dictInsert, h]
      · simp [dictLookup, h0] at h
        simp [dictInsert, h0, ih h]

theorem append_hash_ne (s : String) : s ++ ".hash" ≠ s := by
  intro h
  have hd : s.data ++ ".hash".data = s.data := congrArg String.data h
  have hl := congrArg List.length hd
  rw [List.length_append] at hl
  have h5 : ".hash".data.length = 5 := by decide
  omega

theorem self_ne_append_hash (s : String) : s ≠ s ++ ".hash" :=
  fun h => append_hash_ne s h.symm

/-! ## Concrete scenario data -/

/-- A catalog file entry for a plain, unyanked sdist with no
`requires-python` constraint. -/
def sdistEntry (n : String) : FileInfo := ⟨n, "", [("sha256", "h")], none, false⟩

/-- The requirement `pkg>=1.5.0,<1.6.0` of the file-selection scenario. -/
def pkgReq : Req := ⟨"pkg", [], [(.ge, [1, 5, 0]), (.lt, [1, 6, 0])], none⟩

/-- The file list of the file-selection scenario. -/
def scenarioFiles : List FileInfo :=
  [sdistEntry "pkg-1.6.0.tar.gz", sdistEntry "pkg-1.5.2.tar.gz",
   sdistEntry "pkg-1.5.1.tar.gz", sdistEntry "pkg-1.4.9.tar.gz"]

/-- A one-environment configuration (python 3.10), as in the repository's
own test fixture; the scenario's sdists carry no constraints, so they
match any environment set. -/
def cfgOne : MirrorConfig := ⟨["3.10"], []⟩

/-- The `numpy>=1.20.0; python_version >= "3.8"` requirement of the
dependency-resolution scenario. -/
def numpyReq : Req :=
  ⟨"numpy", [], [(.ge, [1, 20, 0])],
    some (.cmp (.var "python_version") .ge (.lit "3.8"))⟩

/-- The markerless `requests>=2.0.0` requirement. -/
def requestsReq : Req := ⟨"requests", [], [(.ge, [2, 0, 0])], none⟩

/-- A metadata record whose core dependencies are `requests>=2.0.0` and
the marker-carrying `numpy` requirement (as obtained from parsing the
scenario's core-metadata `Requires-Dist` entries: the numpy marker does
not test `extra`, so both are core dependencies). -/
def numpyRecord : MDRecord :=
  { emptyRecord with coreDependencies := [requestsReq, numpyReq] }

/-- An environment with python 3.7. -/
def env37 : Env := [("python_version", "3.7")]

/-- An environment with python 3.8. -/
def env38 : Env := [("python_version", "3.8")]

/-- A requirement oracle that records the raw requirement line as the
package name (the routing of `_parse_requirestxt` is independent of the
parse result). -/
def rawNameReq (s : String) : Option Req := some ⟨s, [], [], none⟩

/-! ## C8 — interpreter-tag parsing -/

/-- C8: interpreter-tag parsing yields `("cp", "3.10")` for `cp310`,
`("cp", "3")` for `cp3`, and `("something_strange", none)` for
`something_strange`; digits after the name form the version with the
first digit as major and the rest as minor, a `.` or `_` separator being
accepted (`cp3_10`, `cp38`), and an unparseable token is kept whole with
no version. -/
theorem parse_interpreter_scenario :
    parse_interpreter "cp310" = ("cp", some "3.10")
  ∧ parse_interpreter "cp3" = ("cp", some "3")
  ∧ parse_interpreter "something_strange" = ("something_strange", none)
  ∧ parse_interpreter "cp3_10" = ("cp", some "3.10")
  ∧ parse_interpreter "cp38" = ("cp", some "3.8") := by
  refine ⟨?_, ?_, ?_, ?_, ?_⟩ <;> decide

/-! ## C3 — file selection by version -/

/-- C3: on the scenario list (four unconstrained sdists, none yanked),
with requirement `pkg>=1.5.0,<1.6.0`, the default selection narrows to
the files of 1.5.2 (the single highest satisfying version); the
"all versions" mode (modelled from the spec, its implementation being
absent from `src/morgan/__init__.py`) keeps the files of 1.5.2 and 1.5.1,
and with the flag off coincides with the default selection. -/
theorem filter_files_scenario :
    filter_files (fun _ => none) cfgOne pkgReq scenarioFiles =
      some [⟨sdistEntry "pkg-1.5.2.tar.gz", [1, 5, 2], false, none⟩]
  ∧ filter_files_with_mode (fun _ => none) cfgOne true pkgReq scenarioFiles =
      some [⟨sdistEntry "pkg-1.5.2.tar.gz", [1, 5, 2], false, none⟩,
            ⟨sdistEntry "pkg-1.5.1.tar.gz", [1, 5, 1], false, none⟩]
  ∧ filter_files_with_mode (fun _ => none) cfgOne false pkgReq scenarioFiles =
      filter_files (fun _ => none) cfgOne pkgReq scenarioFiles := by
  refine ⟨?_, ?_, ?_⟩ <;> decide

/-! ## C7 — requirement-manifest routing and the missing
`_add_build_requirements` -/

/-- C7: in `_parse_requirestxt`, unlabeled lines of a `requires.txt`
before any section become core dependencies and a `[section]` becomes an
optional-dependency group (a label embedding a marker after `:` is stored
under that label, which `dependencies` later treats as
marker-conditioned); but for the build-time variant `setup_requires.txt`
the unlabeled lines reach the call to `self._add_build_requirements`,
a method defined nowhere in `MetadataParser`, so the code raises
`AttributeError` instead of recording build dependencies — this
contradicts the class's own documentation of `build_dependencies` and of
`setup-requires.txt` support. -/
theorem parse_requirestxt_routing :
    parse_requirestxt rawNameReq "pkg.egg-info/requires.txt"
      ["requests>=2.0.0", "", "[web]", "flask>=2.0.0"] emptyRecord =
      .ok { emptyRecord with
              coreDependencies := [⟨"requests>=2.0.0", [], [], none⟩],
              optionalDependencies := [("web", [⟨"flask>=2.0.0", [], [], none⟩])] }
  ∧ parse_requirestxt rawNameReq "pkg.egg-info/requires.txt"
      ["[sec:python_version<3.4]", "bar"] emptyRecord =
      .ok { emptyRecord with
              optionalDependencies :=
                [("sec:python_version<3.4", [⟨"bar", [], [], none⟩])] }
  ∧ parse_requirestxt rawNameReq "pkg.egg-info/setup_requires.txt"
      ["setuptools>=42"] emptyRecord = .error .attributeErrorAddBuild
  ∧ parse_requirestxt rawNameReq "pkg.egg-info/setup_requires.txt" []
      emptyRecord = .error .attributeErrorAddBuild := by
  refine ⟨?_, ?_, ?_, ?_⟩ <;> decide

/-! ## C2 — dedup identity: exact string vs canonical name -/

/-- The parent requirement `parent` of the dedup scenario. -/
def parentReq : Req := ⟨"parent", [], [], none⟩

/-- The dependency `foo>=1`. -/
def fooGe1 : Req := ⟨"foo", [], [(.ge, [1])], none⟩

/-- The dependency `foo<2`. -/
def fooLt2 : Req := ⟨"foo", [], [(.lt, [2])], none⟩

/-- C2 counterexample: the dependency dictionary built by
`_process_file` is keyed by canonical **name**, not by the serialized
requirement string: discovering `foo>=1` and then `foo<2` from the same
file leaves a single entry — the `foo<2` binding has replaced `foo>=1`,
which is never fed into the next wave.  This refutes the claim that two
differently-constrained requirements for the same package are never
suppressed or replaced in the dependency set accumulated for the next
wave. -/
theorem depdict_name_keyed_counterexample :
    depdictOfDeps parentReq [fooGe1, fooLt2] = [("foo", (fooLt2, parentReq))]
  ∧ reqStr fooGe1 ≠ reqStr fooLt2 := by
  refine ⟨?_, ?_⟩ <;> decide

/-- C2 (amended): dedup against the processed set is keyed by the exact
serialized requirement string — `_mirror` skips a requirement exactly
when its `reqStr` is recorded, so two differently-serialized requirements
never suppress each other there (first two conjuncts, observed through a
fetch oracle whose error shows that processing proceeded); but the
dependency dictionary a wave accumulates is keyed by canonical name
alone, so among same-named dependencies discovered for one requirement
only the last recorded binding survives (third conjunct). -/
theorem processed_set_exact_string_name_keyed_waves :
    (∀ (pf : Req → EnrFile → Except Unit (Option DepDict)) wp cfg r1 r2 rb,
        reqStr r1 ≠ reqStr r2 →
        mirrorStep (fun _ => .error .urlError) pf wp cfg [reqStr r1] r2 rb =
          .error (.fetch .urlError))
  ∧ (∀ (pf : Req → EnrFile → Except Unit (Option DepDict)) wp cfg r rb,
        mirrorStep (fun _ => .error .urlError) pf wp cfg [reqStr r] r rb =
          .ok (none, [reqStr r]))
  ∧ (∀ preq ds d,
        dictLookup (depdictOfDeps preq (ds ++ [d])) (canonicalize_name d.name) =
          some ({ d with name := canonicalize_name d.name }, preq)) := by
  refine ⟨?_, ?_, ?_⟩
  · intro pf wp cfg r1 r2 rb h
    have h2 : ¬reqStr r2 = reqStr r1 := fun hh => h hh.symm
    unfold mirrorStep
    simp [h2]
  · intro pf wp cfg r rb
    unfold mirrorStep
    simp
  · intro preq ds d
    unfold depdictOfDeps
    rw [List.foldl_append]
    simp only [List.foldl_cons, List.foldl_nil]
    exact dictLookup_dictInsert_self _ _ _

/-- C2 witness: the amended theorem applied to the concrete `foo>=1` /
`foo<2` pair: with only `foo>=1` processed, `foo<2` proceeds to the
fetch; with `foo<2` itself processed it is skipped; and the wave
dictionary retains only the last `foo` binding. -/
theorem processed_set_exact_string_name_keyed_waves_witness :
    mirrorStep (fun _ => .error .urlError) (fun _ _ => .ok none)
      (fun _ => none) cfgOne [reqStr fooGe1] fooLt2 none =
        .error (.fetch .urlError)
  ∧ mirrorStep (fun _ => .error .urlError) (fun _ _ => .ok none)
      (fun _ => none) cfgOne [reqStr fooLt2] fooLt2 none =
        .ok (none, [reqStr fooLt2])
  ∧ dictLookup (depdictOfDeps parentReq ([fooGe1] ++ [fooLt2]))
      (canonicalize_name fooLt2.name) =
        some ({ fooLt2 with name := canonicalize_name fooLt2.name },
          parentReq) :=
  ⟨processed_set_exact_string_name_keyed_waves.1 _ _ cfgOne fooGe1 fooLt2
      none (by decide),
   processed_set_exact_string_name_keyed_waves.2.1 _ _ cfgOne fooLt2 none,
   processed_set_exact_string_name_keyed_waves.2.2 parentReq [fooGe1] fooLt2⟩

/-! ## C1 — network-error handling -/

/-- The directly requested requirement `alpha`. -/
def alphaReq : Req := ⟨"alpha", [], [], none⟩

/-- The dependency requirement `foo` discovered under `alpha`. -/
def fooDepReq : Req := ⟨"foo", [], [], none⟩

/-- The catalog listing for `alpha`: api version 1.0, one sdist. -/
def alphaCatalog : Catalog := ⟨"1.0", some [sdistEntry "alpha-1.0.0.tar.gz"]⟩

/-- A fetch oracle under which `alpha` resolves and every other package
(in particular the dependency `foo`) yields an HTTP 404. -/
def fetchAlpha (n : String) : Except FetchErr Catalog :=
  if n = "alpha" then .ok alphaCatalog else .error (.httpError 404)

/-- A `_process_file` oracle that reports the single dependency `foo`. -/
def pfFoo (r : Req) (_ : EnrFile) : Except Unit (Option DepDict) :=
  .ok (some [("foo", (fooDepReq, r))])

/-- C1 counterexample: the handling is the reverse of the claim.  When
the catalog fetch of the **directly requested** requirement fails with
HTTP 404, `mirror` swallows the error and returns normally (first
conjunct); when the fetch of a **dependency** fails with HTTP 404 during
a wave, the error propagates out of `mirror` unhandled, fatally (second
conjunct). -/
theorem mirror_network_error_counterexample :
    Mirrorer.mirror (fun _ => .error (.httpError 404)) pfFoo (fun _ => none)
      cfgOne 1 alphaReq [] = .ok []
  ∧ Mirrorer.mirror fetchAlpha pfFoo (fun _ => none) cfgOne 2 alphaReq [] =
      .error (.fetch (.httpError 404)) := by
  refine ⟨?_, ?_⟩ <;> decide

/-- C1 (amended): an HTTP error while fetching the catalog of a
**directly requested** requirement is caught by `mirror`'s top-level
handler and swallowed — the call returns normally with the state
unchanged (first conjunct, for every oracle and state); the same error
while fetching the catalog of a **dependency** requirement inside a wave
propagates out of `mirror` unhandled and is fatal to the run (second
conjunct). -/
theorem mirror_http_error_direct_swallowed_dep_fatal :
    (∀ (fetch : String → Except FetchErr Catalog)
        (pf : Req → EnrFile → Except Unit (Option DepDict)) wp cfg fuel st
        req c, fetch req.name = .error (.httpError c) →
        Mirrorer.mirror fetch pf wp cfg fuel req st = .ok st)
  ∧ (∀ (fetch : String → Except FetchErr Catalog)
        (pf : Req → EnrFile → Except Unit (Option DepDict)) wp cfg fuel st
        req nm dreq dby rest st₁ c,
        mirrorStep fetch pf wp cfg st req none =
          .ok (some ((nm, (dreq, dby)) :: rest), st₁) →
        reqStr dreq ∉ st₁ →
        fetch dreq.name = .error (.httpError c) →
        Mirrorer.mirror fetch pf wp cfg (fuel + 1) req st =
          .error (.fetch (.httpError c))) := by
  constructor
  · intro fetch pf wp cfg fuel st req c h
    unfold Mirrorer.mirror mirrorStep
    by_cases hc : reqStr req ∈ st
    · simp [hc]
    · simp [hc, h]
  · intro fetch pf wp cfg fuel st req nm dreq dby rest st₁ c h1 h2 h3
    unfold Mirrorer.mirror
    rw [h1]
    unfold mirrorWaves
    simp only [List.isEmpty_cons, Bool.false_eq_true, if_false]
    unfold processWave mirrorStep
    simp [h2, h3]

/-- C1 witness: the amended theorem at the concrete `alpha`/`foo`
scenario — the direct 404 returns `.ok`, the dependency 404 is fatal. -/
theorem mirror_http_error_direct_swallowed_dep_fatal_witness :
    Mirrorer.mirror (fun _ => .error (.httpError 404)) pfFoo (fun _ => none)
      cfgOne 1 alphaReq [] = .ok []
  ∧ Mirrorer.mirror fetchAlpha pfFoo (fun _ => none) cfgOne (1 + 1) alphaReq
      [] = .error (.fetch (.httpError 404)) :=
  ⟨mirror_http_error_direct_swallowed_dep_fatal.1 _ pfFoo (fun _ => none)
      cfgOne 1 [] alphaReq 404 rfl,
   mirror_http_error_direct_swallowed_dep_fatal.2 fetchAlpha pfFoo
      (fun _ => none) cfgOne 1 [] alphaReq "foo" fooDepReq alphaReq []
      [reqStr alphaReq] 404 (by decide) (by decide) (by decide)⟩

/-! ## C4 — `requires-python` must hold for every environment -/

/-- C4: a candidate file carrying a parsed `requires-python` constraint
survives `_matches_environments` only if every configured environment's
`python_version` parses and satisfies the constraint (first conjunct);
conversely, if even one environment's python version fails the
constraint, the file is rejected (second conjunct). -/
theorem matches_environments_on_specSet (cfg : MirrorConfig) (f : EnrFile)
    (rp : List Spec) (hrp : f.info.requiresPython = some (.specSet rp)) :
    matches_environments cfg f =
      (if (cfg.supportedPyversions.map
            (fun s => (parseVer s).map (specSetContains rp))).any
            (fun r => r = none) then false
       else if (cfg.supportedPyversions.map
            (fun s => (parseVer s).map (specSetContains rp))).any
            (fun r => r = some false) then false
       else tagsMatch cfg f) := by
  unfold matches_environments
  rw [hrp]

theorem matches_environments_requires_python (cfg : MirrorConfig)
    (f : EnrFile) (rp : List Spec)
    (hrp : f.info.requiresPython = some (.specSet rp)) :
    (matches_environments cfg f = true →
      ∀ s ∈ cfg.supportedPyversions,
        ∃ v, parseVer s = some v ∧ specSetContains rp v = true)
  ∧ (∀ s ∈ cfg.supportedPyversions, ∀ v, parseVer s = some v →
      specSetContains rp v = false → matches_environments cfg f = false) := by
  rw [matches_environments_on_specSet cfg f rp hrp]
  constructor
  · intro hm s hs
    by_cases h1 : (cfg.supportedPyversions.map
        (fun s => (parseVer s).map (specSetContains rp))).any
        (fun r => r = none) = true
    · rw [if_pos h1] at hm
      exact absurd hm (by simp)
    · by_cases h2 : (cfg.supportedPyversions.map
          (fun s => (parseVer s).map (specSetContains rp))).any
          (fun r => r = some false) = true
      · rw [if_neg h1, if_pos h2] at hm
        exact absurd hm (by simp)
      · have hmem : ((parseVer s).map (specSetContains rp)) ∈
            cfg.supportedPyversions.map
              (fun s => (parseVer s).map (specSetContains rp)) :=
          List.mem_map_of_mem _ hs
        cases hv : parseVer s with
        | none =>
            exact absurd (List.any_eq_true.mpr
              ⟨_, hmem, by rw [hv]; simp⟩) h1
        | some v =>
            refine ⟨v, rfl, ?_⟩
            cases hc : specSetContains rp v with
            | false =>
                exact absurd (List.any_eq_true.mpr
                  ⟨_, hmem, by rw [hv]; simp [Option.map, hc]⟩) h2
            | true => rfl
  · intro s hs v hv hc
    have hmem : ((parseVer s).map (specSetContains rp)) ∈
        cfg.supportedPyversions.map
          (fun s => (parseVer s).map (specSetContains rp)) :=
      List.mem_map_of_mem _ hs
    have h2 : (cfg.supportedPyversions.map
        (fun s => (parseVer s).map (specSetContains rp))).any
        (fun r => r = some false) = true :=
      List.any_eq_true.mpr ⟨_, hmem, by rw [hv]; simp [Option.map, hc]⟩
    by_cases h1 : (cfg.supportedPyversions.map
        (fun s => (parseVer s).map (specSetContains rp))).any
        (fun r => r = none) = true
    · rw [if_pos h1]
    · rw [if_neg h1, if_pos h2]

/-- C4 witness: the theorem at a concrete configuration and file — python
3.10 against `requires-python ==3.1`: 3.10 fails the constraint, and the
file is indeed rejected. -/
theorem matches_environments_requires_python_witness :
    (matches_environments cfgOne
        ⟨⟨"pkg-1.0.0.tar.gz", "", [], some (.specSet [(.eq, [3, 1])]), false⟩,
          [1, 0, 0], false, none⟩ = true →
      ∀ s ∈ cfgOne.supportedPyversions,
        ∃ v, parseVer s = some v ∧
          specSetContains [(.eq, [3, 1])] v = true)
  ∧ matches_environments cfgOne
      ⟨⟨"pkg-1.0.0.tar.gz", "", [], some (.specSet [(.eq, [3, 1])]), false⟩,
        [1, 0, 0], false, none⟩ = false :=
  ⟨(matches_environments_requires_python cfgOne _ [(.eq, [3, 1])] rfl).1,
   (matches_environments_requires_python cfgOne _ [(.eq, [3, 1])] rfl).2
      "3.10" (by decide) [3, 10] (by decide) (by decide)⟩

/-! ## C5 — marker filtering of resolved dependencies -/

/-- C5: in the result of `dependencies`, a dependency from the resolved
union is included iff it is markerless or its marker evaluates true
against at least one environment with `extra` bound to the joined
requested extras (conjuncts 1-3); concretely, the record with
`Requires-Dist: numpy>=1.20.0; python_version >= "3.8"` resolves without
numpy against a python 3.7 environment and with numpy against a python
3.8 environment (conjuncts 4-5). -/
theorem dependencies_marker_filter (pm : String → Option Marker)
    (r : MDRecord) (extras : List String) (envs : List Env) (u : List Req)
    (hu : dependenciesUnion pm r extras envs = .ok u) :
    dependencies pm r extras envs =
      .ok (u.filter (requirementRelevant extras envs))
  ∧ (∀ d ∈ u, d.marker = none →
      d ∈ u.filter (requirementRelevant extras envs))
  ∧ (∀ d ∈ u, ∀ m, d.marker = some m →
      (d ∈ u.filter (requirementRelevant extras envs) ↔
        ∃ env ∈ envs,
          evalMarker (dictInsert env "extra" (joinExtras extras)) m = true))
  ∧ dependencies (fun _ => none) numpyRecord [] [env37] = .ok [requestsReq]
  ∧ dependencies (fun _ => none) numpyRecord [] [env38] =
      .ok [requestsReq, numpyReq] := by
  refine ⟨?_, ?_, ?_, by decide, by decide⟩
  · unfold dependencies
    rw [hu]
  · intro d hd hm
    rw [List.mem_filter]
    refine ⟨hd, ?_⟩
    unfold requirementRelevant
    rw [hm]
  · intro d hd m hm
    rw [List.mem_filter]
    unfold requirementRelevant
    rw [hm]
    constructor
    · rintro ⟨-, hrel⟩
      exact List.any_eq_true.mp hrel
    · intro hex
      exact ⟨hd, List.any_eq_true.mpr hex⟩

/-- C5 witness: the theorem at the concrete 3.8-environment scenario —
the resolution result is the relevance-filtered union, and numpy's
membership is equivalent to its marker holding in some environment. -/
theorem dependencies_marker_filter_witness :
    dependencies (fun _ => none) numpyRecord [] [env38] =
      .ok ([requestsReq, numpyReq].filter (requirementRelevant [] [env38]))
  ∧ (numpyReq ∈
      [requestsReq, numpyReq].filter (requirementRelevant [] [env38]) ↔
        ∃ env ∈ [env38],
          evalMarker (dictInsert env "extra" (joinExtras []))
            (.cmp (.var "python_version") .ge (.lit "3.8")) = true) :=
  have h := dependencies_marker_filter (fun _ => none) numpyRecord [] [env38]
    [requestsReq, numpyReq] (by decide)
  ⟨h.1, h.2.2.1 numpyReq (by decide) _ rfl⟩

/-! ## C6 and C9 — downloader round-trip and sidecar writes -/

theorem fetchAndVerify_ok_inv (hash : String → List Nat → String)
    (net : String → List Nat) (fi : FileInfo) (target alg exphash : String)
    (st' : DlState) (b : Bool) (st₁ : DlState)
    (h : fetchAndVerify hash net fi target alg exphash st' = .ok (b, st₁)) :
    b = true ∧ st₁.fetchCount = st'.fetchCount + 1 ∧
    ∃ contents, dictLookup st₁.fs target = some contents ∧
      hash alg contents = exphash ∧
      dictLookup st₁.fs (target ++ ".hash") =
        some (strBytes (alg ++ "=" ++ exphash)) := by
  unfold fetchAndVerify hash_file at h
  simp only [dictLookup_dictInsert_self] at h
  by_cases hc : hash alg (net fi.url) = exphash
  · rw [if_pos hc] at h
    obtain ⟨hb, hst⟩ := by
      have := h
      simp only [Except.ok.injEq, Prod.mk.injEq] at this
      exact this
    subst hb
    subst hst
    refine ⟨rfl, rfl, net fi.url, ?_, hc, ?_⟩
    · rw [dictLookup_dictInsert_ne _ _ _ _ (self_ne_append_hash target),
        dictLookup_dictInsert_self]
    · rw [hc, dictLookup_dictInsert_self]
  · rw [if_neg hc] at h
    exact absurd h (by simp)

theorem download_file_ok_inv (hash : String → List Nat → String)
    (net : String → List Nat) (fi : FileInfo) (target alg : String)
    (st : DlState) (b : Bool) (st₁ : DlState)
    (h : download_file hash net fi target alg st = .ok (b, st₁)) :
    b = true ∧ ∃ exphash,
      dictLookup fi.hashes alg = some exphash ∧
      (∃ contents, dictLookup st₁.fs target = some contents ∧
        hash alg contents = exphash) ∧
      dictLookup st₁.fs (target ++ ".hash") =
        some (strBytes (alg ++ "=" ++ exphash)) := by
  unfold download_file at h
  cases hh : dictLookup fi.hashes alg with
  | none => rw [hh] at h; exact absurd h (by simp)
  | some exphash =>
      rw [hh] at h
      cases he : dictLookup st.fs target with
      | none =>
          rw [he] at h
          obtain ⟨hb, hcnt, contents, h1, h2, h3⟩ :=
            fetchAndVerify_ok_inv hash net fi target alg exphash st b st₁ h
          exact ⟨hb, exphash, rfl, ⟨contents, h1, h2⟩, h3⟩
      | some old =>
          rw [he] at h
          unfold hash_file at h
          rw [he] at h
          simp only [] at h
          by_cases hc : hash alg old = exphash
          · rw [if_pos hc] at h
            obtain ⟨hb, hst⟩ := by
              have := h
              simp only [Except.ok.injEq, Prod.mk.injEq] at this
              exact this
            subst hb
            subst hst
            refine ⟨rfl, exphash, rfl, ⟨old, ?_, hc⟩, ?_⟩
            · rw [dictLookup_dictInsert_ne _ _ _ _
                (self_ne_append_hash target)]
              exact he
            · rw [hc, dictLookup_dictInsert_self]
          · rw [if_neg hc] at h
            obtain ⟨hb, hcnt, contents, h1, h2, h3⟩ :=
              fetchAndVerify_ok_inv hash net fi target alg exphash _ b st₁ h
            exact ⟨hb, exphash, rfl, ⟨contents, h1, h2⟩, h3⟩

/-- The verification-only path of `_download_file`: when the target
exists and its recomputed digest matches the expected one, the call
returns `True` with the fetch counter untouched, the sidecar rewrite
being the only filesystem change. -/
theorem download_file_verify (hash : String → List Nat → String)
    (net : String → List Nat) (fi : FileInfo) (target alg exphash : String)
    (fs : FS) (n : Nat) (contents : List Nat)
    (hh : dictLookup fi.hashes alg = some exphash)
    (ht : dictLookup fs target = some contents)
    (hc : hash alg contents = exphash) :
    download_file hash net fi target alg ⟨fs, n⟩ =
      .ok (true, ⟨dictInsert fs (target ++ ".hash")
        (strBytes (alg ++ "=" ++ exphash)), n⟩) := by
  unfold download_file hash_file
  rw [hh, ht]
  simp only []
  rw [if_pos hc, hc]

/-- C6: a second `_download_file` call on the unmodified target left by a
successful call returns the same result and the very same state — in
particular `fetchCount` is unchanged, so the second call performed zero
network fetches — and both calls leave the same digest (the expected
hash) recorded in the `<target>.hash` sidecar. -/
theorem ensure_roundtrip (hash : String → List Nat → String)
    (net : String → List Nat) (fi : FileInfo) (target alg : String)
    (st : DlState) (b : Bool) (st₁ : DlState)
    (h : download_file hash net fi target alg st = .ok (b, st₁)) :
    download_file hash net fi target alg st₁ = .ok (b, st₁)
  ∧ b = true
  ∧ ∃ exphash, dictLookup fi.hashes alg = some exphash ∧
      dictLookup st₁.fs (target ++ ".hash") =
        some (strBytes (alg ++ "=" ++ exphash)) := by
  obtain ⟨hb, exphash, hh, ⟨contents, ht, hc⟩, hside⟩ :=
    download_file_ok_inv hash net fi target alg st b st₁ h
  subst hb
  have hins : dictInsert st₁.fs (target ++ ".hash")
      (strBytes (alg ++ "=" ++ exphash)) = st₁.fs :=
    dictInsert_of_lookup_eq _ _ _ hside
  have h2 := download_file_verify hash net fi target alg exphash st₁.fs
    st₁.fetchCount contents hh ht hc
  rw [hins] at h2
  exact ⟨h2, rfl, exphash, hh, hside⟩

/-- C6 witness: a concrete first download (empty filesystem, constant
hash oracle) followed by the theorem's round trip. -/
theorem ensure_roundtrip_witness :
    download_file (fun _ _ => "d") (fun _ => [7, 7, 7])
      ⟨"pkg-1.0.0.tar.gz", "u", [("sha256", "d")], none, false⟩ "t" "sha256"
      ⟨[("t", [7, 7, 7]), ("t.hash", strBytes "sha256=d")], 1⟩ =
      .ok (true, ⟨[("t", [7, 7, 7]), ("t.hash", strBytes "sha256=d")], 1⟩) :=
  have h := ensure_roundtrip (fun _ _ => "d") (fun _ => [7, 7, 7])
    ⟨"pkg-1.0.0.tar.gz", "u", [("sha256", "d")], none, false⟩ "t" "sha256"
    ⟨[], 0⟩ true
    ⟨[("t", [7, 7, 7]), ("t.hash", strBytes "sha256=d")], 1⟩ (by decide)
  h.1

/-- C9: every `_hash_file` run on an existing target overwrites the
`<target>.hash` sidecar with the single line `<alg>=<hexdigest>` and
returns that digest (conjuncts 1-2); every other path — the artifact
itself included — is untouched (conjunct 3); and in the verification-only
case (existing target whose digest already matches), the sidecar write is
the only filesystem change of `_download_file` and the fetch counter is
untouched (conjunct 4). -/
theorem hash_file_sidecar_frame (hash : String → List Nat → String)
    (net : String → List Nat) (fi : FileInfo) (fs : FS)
    (target alg : String) (n : Nat) (contents : List Nat)
    (ht : dictLookup fs target = some contents) :
    hash_file hash fs target alg = some (hash alg contents,
      dictInsert fs (target ++ ".hash")
        (strBytes (alg ++ "=" ++ hash alg contents)))
  ∧ dictLookup (dictInsert fs (target ++ ".hash")
      (strBytes (alg ++ "=" ++ hash alg contents))) (target ++ ".hash") =
      some (strBytes (alg ++ "=" ++ hash alg contents))
  ∧ (∀ p, p ≠ target ++ ".hash" →
      dictLookup (dictInsert fs (target ++ ".hash")
        (strBytes (alg ++ "=" ++ hash alg contents))) p = dictLookup fs p)
  ∧ (dictLookup fi.hashes alg = some (hash alg contents) →
      download_file hash net fi target alg ⟨fs, n⟩ =
        .ok (true, ⟨dictInsert fs (target ++ ".hash")
          (strBytes (alg ++ "=" ++ hash alg contents)), n⟩)) := by
  refine ⟨?_, dictLookup_dictInsert_self _ _ _, ?_, ?_⟩
  · unfold hash_file
    rw [ht]
  · intro p hp
    exact dictLookup_dictInsert_ne _ _ _ _ hp
  · intro hh
    exact download_file_verify hash net fi target alg _ fs n contents hh ht
      rfl

/-- C9 witness: the theorem at a concrete filesystem holding one
artifact: the sidecar is written with the digest line and the artifact
path reads back unchanged. -/
theorem hash_file_sidecar_frame_witness :
    hash_file (fun _ _ => "d") [("t", [7, 7, 7])] "t" "sha256" =
      some ("d", dictInsert [("t", [7, 7, 7])] ("t" ++ ".hash")
        (strBytes ("sha256" ++ "=" ++ "d")))
  ∧ dictLookup (dictInsert [("t", [7, 7, 7])] ("t" ++ ".hash")
      (strBytes ("sha256" ++ "=" ++ "d"))) "t" =
      dictLookup [("t", [7, 7, 7])] "t" :=
  have h := hash_file_sidecar_frame (fun _ _ => "d") (fun _ => [])
    ⟨"f", "u", [], none, false⟩ [("t", [7, 7, 7])] "t" "sha256" 0 [7, 7, 7]
    (by decide)
  ⟨h.1, h.2.2.1 "t" (by decide)⟩

/-! ## C10 — `write_metadata_file` -/

/-- Whether a member name is the archive's main core-metadata file under
the dispatch of `MetadataParser.parse` (the three main-metadata branches,
by archive kind of the source path). -/
def mainMetadataMember (sourcePath filename : String) : Bool :=
  if strEndsWith sourcePath ".whl" then matchWhlMetadata filename
  else if strEndsWith sourcePath ".zip" then matchZipPkgInfo filename
  else if strEndsWith sourcePath ".tar.gz" then matchTarPkgInfo filename
  else false

/-- C10: `write_metadata_file` raises exactly when no core-metadata
member has been parsed yet — equivalently when `seen_metadata_file` is
false (conjuncts 1-2); when one has been parsed, it writes to the target
exactly the retained raw bytes, leaving the parser itself unchanged
(conjunct 3); and parsing a main-metadata member retains exactly the
member's raw bytes, so the subsequent write emits those bytes verbatim
(conjunct 4). -/
theorem write_metadata_file_spec (p : MetadataParser) (target : String)
    (fs : FS) :
    ((∃ e, write_metadata_file p target fs = .error e) ↔
      seen_metadata_file p = false)
  ∧ (seen_metadata_file p = false ↔ p.metadataFile = none)
  ∧ (∀ bs, p.metadataFile = some bs →
      write_metadata_file p target fs = .ok (p, dictInsert fs target bs))
  ∧ (∀ (parseFields : MDRecord → List Nat → MDRecord)
       (parsePyproj : MDRecord → List Nat → Except MDErr MDRecord)
       (parseReq : String → Option Req) (filename : String)
       (content : List Nat),
       mainMetadataMember p.sourcePath filename = true →
       ∃ q, MetadataParser.parse parseFields parsePyproj parseReq p filename
           content = .ok q ∧
         q.metadataFile = some content ∧
         write_metadata_file q target fs = .ok (q, dictInsert fs target
           content)) := by
  refine ⟨?_, ?_, ?_, ?_⟩
  · unfold write_metadata_file seen_metadata_file
    cases p.metadataFile with
    | none => simp
    | some bs => simp
  · unfold seen_metadata_file
    cases p.metadataFile with
    | none => simp
    | some bs => simp
  · intro bs hbs
    unfold write_metadata_file
    rw [hbs]
  · intro parseFields parsePyproj parseReq filename content hmain
    unfold mainMetadataMember at hmain
    unfold MetadataParser.parse
    by_cases h1 : strEndsWith p.sourcePath ".whl" = true
    · rw [if_pos h1] at hmain ⊢
      rw [hmain]
      exact ⟨_, rfl, rfl, by unfold write_metadata_file; rfl⟩
    · rw [if_neg h1] at hmain ⊢
      by_cases h2 : strEndsWith p.sourcePath ".zip" = true
      · rw [if_pos h2] at hmain ⊢
        rw [hmain]
        exact ⟨_, rfl, rfl, by unfold write_metadata_file; rfl⟩
      · rw [if_neg h2] at hmain ⊢
        by_cases h3 : strEndsWith p.sourcePath ".tar.gz" = true
        · rw [if_pos h3] at hmain ⊢
          rw [hmain]
          exact ⟨_, rfl, rfl, by unfold write_metadata_file; rfl⟩
        · rw [if_neg h3] at hmain
          exact absurd hmain (by simp)

/-- C10 witness: the theorem at a concrete wheel parser — before parsing,
writing raises; after parsing the `.dist-info/METADATA` member, the write
emits exactly the member's bytes. -/
theorem write_metadata_file_spec_witness :
    ((∃ e, write_metadata_file ⟨"a-1.0-py3-none-any.whl", none, emptyRecord⟩
        "t" [] = .error e) ↔
      seen_metadata_file ⟨"a-1.0-py3-none-any.whl", none, emptyRecord⟩ =
        false)
  ∧ ∃ q, MetadataParser.parse (fun r _ => r) (fun r _ => .ok r)
        (fun _ => none) ⟨"a-1.0-py3-none-any.whl", none, emptyRecord⟩
        "a-1.0.dist-info/METADATA" [77, 68] = .ok q ∧
      q.metadataFile = some [77, 68] ∧
      write_metadata_file q "t" [] = .ok (q, dictInsert [] "t" [77, 68]) :=
  have h := write_metadata_file_spec
    ⟨"a-1.0-py3-none-any.whl", none, emptyRecord⟩ "t" []
  ⟨h.1, h.2.2.2 (fun r _ => r) (fun r _ => .ok r) (fun _ => none)
    "a-1.0.dist-info/METADATA" [77, 68] (by decide)⟩

end Morgan
